import Mathlib

/-
  Verification of the kumi tuple library (layout selection, element access,
  comparison, extraction, assignment and cast) against its specification.

  Sources embedded:
    src/kumi/detail/optimized.hpp  - binder specializations and get_leaf
    src/kumi/tuple.hpp             - tuple facade: operator[], extract,
                                     operator=, cast, comparison operators
-/

namespace Kumi

/-! ## Type-level model of the element type lists and layout selection -/

/-- Model of a C++ element type: a few concrete scalar types plus reference
types (`T&` / `T&&`), enough to express the layout-eligibility predicates
`no_references` and `all_the_same` of optimized.hpp. -/
inductive CTy where
  | i32 : CTy
  | chr : CTy
  | f64 : CTy
  | ref : CTy → CTy
deriving DecidableEq, Repr

/-- Whether a modelled C++ type is a reference type (`std::is_reference_v`). -/
def CTy.isRef : CTy → Bool
  | .ref _ => true
  | _ => false

/-- Element type of a `std::integer_sequence` key: the optimized binder
specializations are keyed on `integer_sequence<int,...>` while
`std::make_index_sequence` produces `integer_sequence<std::size_t,...>`.
The element type is part of the sequence type, so it participates in
specialization matching. -/
inductive SeqElem where
  | sint : SeqElem
  | ssizet : SeqElem
deriving DecidableEq, Repr

/-- Model of a `std::integer_sequence` type: its integer element type and
its list of values. -/
structure CSeq where
  elemTy : SeqElem
  vals : List Nat
deriving DecidableEq, Repr

/-- Model of `std::make_index_sequence<n>`, which is
`std::integer_sequence<std::size_t, 0, ..., n-1>`.  This is the key
`tuple` passes to `binder` (tuple.hpp line 33). -/
def make_index_sequence (n : Nat) : CSeq :=
  ⟨.ssizet, List.range n⟩

/-- Embedding of `kumi::detail::no_references` (optimized.hpp lines 21-22):
true when no element type is a reference. -/
def no_references (ts : List CTy) : Bool :=
  ts.all (fun t => !t.isRef)

/-- Embedding of `kumi::detail::all_the_same` (optimized.hpp lines 25-26):
true when every element type equals the first. -/
def all_the_same : List CTy → Bool
  | [] => true
  | t0 :: rest => rest.all (fun t => t == t0)

/-- Whether the homogeneous flat-array binder specialization
(optimized.hpp lines 33-39) matches an instantiation key: the sequence must
be `integer_sequence<int, Is...>` (any values), there must be at least two
element types, all identical and none a reference. -/
def flatMatch (k : CSeq) (ts : List CTy) : Bool :=
  (k.elemTy == .sint) && decide (2 ≤ ts.length) && all_the_same ts && no_references ts

/-- Whether one of the six named-field binder specializations
(optimized.hpp lines 72-160) matches an instantiation key: specialization
n (n = 1..6) is keyed on exactly `integer_sequence<int, 0, ..., n-1>` with
exactly n element types, all non-reference. -/
def namedMatch (k : CSeq) (ts : List CTy) : Bool :=
  (k.elemTy == .sint) && decide (1 ≤ ts.length) && decide (ts.length ≤ 6)
    && (k.vals == List.range ts.length) && no_references ts

/-- The three storage representations of the spec: the homogeneous
flat-array layout, the named-field layout, and the generic fallback. -/
inductive Layout where
  | flat : Layout
  | named : Layout
  | generic : Layout
deriving DecidableEq, Repr

/-- C++ partial-specialization selection over the binder specializations of
optimized.hpp.  When both a named-field specialization (fixed index list
`0,...,n-1`) and the flat specialization (index pack `Is...`) match, the
named-field one is more specialized under C++ partial ordering and wins;
anything matched by neither uses the primary template, i.e. the generic
fallback of binder.hpp. -/
def selectLayout (k : CSeq) (ts : List CTy) : Layout :=
  if namedMatch k ts then .named
  else if flatMatch k ts then .flat
  else .generic

/-- The representation actually selected for `kumi::tuple<Ts...>`: tuple.hpp
line 33 declares `detail::binder<std::make_index_sequence<sizeof...(Ts)>, Ts...> impl;`,
so the instantiation key is the size_t-keyed index sequence. -/
def tupleLayout (ts : List CTy) : Layout :=
  selectLayout (make_index_sequence ts.length) ts

/-! ## Value-level models of the storage representations -/

/-- Model of the homogeneous flat-array binder (optimized.hpp lines 33-39):
a single array member `T0 members[2+sizeof...(Ts)]` holding all elements;
the static array size is reflected by the length of the list. -/
structure flat_binder (α : Type) where
  members : List α
deriving DecidableEq, Repr

/-- Model of default construction of the flat binder: the member declaration
`T0 members[...] = {};` value-initializes every element, which for `int`
yields 0. -/
def flat_default (n : Nat) : flat_binder Int :=
  ⟨List.replicate n 0⟩

/-- Embedding of the flat-array `get_leaf` (optimized.hpp lines 41-46):
`return arg.members[I];`. -/
def flat_binder.get_leaf [Inhabited α] (i : Nat) (b : flat_binder α) : α :=
  b.members.getD i default

/-- State-passing rendering of assignment through the reference returned by
the flat-array `get_leaf`: element i of the array is overwritten. -/
def flat_binder.set_leaf (i : Nat) (v : α) (b : flat_binder α) : flat_binder α :=
  ⟨b.members.set i v⟩

/-- Abstraction of a flat binder to its element sequence. -/
def flat_binder.absList (b : flat_binder α) : List α :=
  b.members

/-- Model of the arity-1 named-field binder (optimized.hpp lines 72-79). -/
structure binder0 (α0 : Type) where
  member0 : α0
deriving DecidableEq, Repr

/-- Model of the arity-2 named-field binder (optimized.hpp lines 81-90);
its members carry no initializer, so default construction leaves them
indeterminate. -/
structure binder01 (α0 α1 : Type) where
  member0 : α0
  member1 : α1
deriving DecidableEq, Repr

/-- Model of the arity-3 named-field binder (optimized.hpp lines 92-103). -/
structure binder012 (α0 α1 α2 : Type) where
  member0 : α0
  member1 : α1
  member2 : α2
deriving DecidableEq, Repr

/-- Model of the arity-4 named-field binder (optimized.hpp lines 105-120). -/
structure binder0123 (α0 α1 α2 α3 : Type) where
  member0 : α0
  member1 : α1
  member2 : α2
  member3 : α3
deriving DecidableEq, Repr

/-- Model of the arity-5 named-field binder (optimized.hpp lines 122-139). -/
structure binder01234 (α0 α1 α2 α3 α4 : Type) where
  member0 : α0
  member1 : α1
  member2 : α2
  member3 : α3
  member4 : α4
deriving DecidableEq, Repr

/-- Model of the arity-6 named-field binder (optimized.hpp lines 141-160). -/
structure binder012345 (α0 α1 α2 α3 α4 α5 : Type) where
  member0 : α0
  member1 : α1
  member2 : α2
  member3 : α3
  member4 : α4
  member5 : α5
deriving DecidableEq, Repr

/-- Model of default construction of the arity-2 named-field binder: its
members have no initializer, so a default-constructed binder holds
indeterminate values, modelled by the two parameters. -/
def named_default01 (j0 j1 : α) : binder01 α α :=
  ⟨j0, j1⟩

/-- Named-field `get_leaf` dispatch (optimized.hpp lines 165-175) for the
arity-1 binder: `if constexpr(I == 0) return arg.member0;`. -/
def binder0.get_leaf [Inhabited α] (i : Nat) (b : binder0 α) : α :=
  if i = 0 then b.member0 else default

/-- Named-field `get_leaf` dispatch for the arity-2 binder, following the
compile-time `if constexpr` chain over the index. -/
def binder01.get_leaf [Inhabited α] (i : Nat) (b : binder01 α α) : α :=
  if i = 0 then b.member0 else if i = 1 then b.member1 else default

/-- Named-field `get_leaf` dispatch for the arity-3 binder. -/
def binder012.get_leaf [Inhabited α] (i : Nat) (b : binder012 α α α) : α :=
  if i = 0 then b.member0 else if i = 1 then b.member1
  else if i = 2 then b.member2 else default

/-- Named-field `get_leaf` dispatch for the arity-4 binder. -/
def binder0123.get_leaf [Inhabited α] (i : Nat) (b : binder0123 α α α α) : α :=
  if i = 0 then b.member0 else if i = 1 then b.member1
  else if i = 2 then b.member2 else if i = 3 then b.member3 else default

/-- Named-field `get_leaf` dispatch for the arity-5 binder. -/
def binder01234.get_leaf [Inhabited α] (i : Nat) (b : binder01234 α α α α α) : α :=
  if i = 0 then b.member0 else if i = 1 then b.member1
  else if i = 2 then b.member2 else if i = 3 then b.member3
  else if i = 4 then b.member4 else default

/-- Named-field `get_leaf` dispatch for the arity-6 binder. -/
def binder012345.get_leaf [Inhabited α] (i : Nat) (b : binder012345 α α α α α α) : α :=
  if i = 0 then b.member0 else if i = 1 then b.member1
  else if i = 2 then b.member2 else if i = 3 then b.member3
  else if i = 4 then b.member4 else if i = 5 then b.member5 else default

/-- Assignment through the reference returned by the arity-1 named-field
`get_leaf`. -/
def binder0.set_leaf (i : Nat) (v : α) (b : binder0 α) : binder0 α :=
  if i = 0 then { b with member0 := v } else b

/-- Assignment through the reference returned by the arity-2 named-field
`get_leaf`. -/
def binder01.set_leaf (i : Nat) (v : α) (b : binder01 α α) : binder01 α α :=
  if i = 0 then { b with member0 := v }
  else if i = 1 then { b with member1 := v } else b

/-- Assignment through the reference returned by the arity-3 named-field
`get_leaf`. -/
def binder012.set_leaf (i : Nat) (v : α) (b : binder012 α α α) : binder012 α α α :=
  if i = 0 then { b with member0 := v }
  else if i = 1 then { b with member1 := v }
  else if i = 2 then { b with member2 := v } else b

/-- Assignment through the reference returned by the arity-4 named-field
`get_leaf`. -/
def binder0123.set_leaf (i : Nat) (v : α) (b : binder0123 α α α α) : binder0123 α α α α :=
  if i = 0 then { b with member0 := v }
  else if i = 1 then { b with member1 := v }
  else if i = 2 then { b with member2 := v }
  else if i = 3 then { b with member3 := v } else b

/-- Assignment through the reference returned by the arity-5 named-field
`get_leaf`. -/
def binder01234.set_leaf (i : Nat) (v : α) (b : binder01234 α α α α α) : binder01234 α α α α α :=
  if i = 0 then { b with member0 := v }
  else if i = 1 then { b with member1 := v }
  else if i = 2 then { b with member2 := v }
  else if i = 3 then { b with member3 := v }
  else if i = 4 then { b with member4 := v } else b

/-- Assignment through the reference returned by the arity-6 named-field
`get_leaf`. -/
def binder012345.set_leaf (i : Nat) (v : α) (b : binder012345 α α α α α α) : binder012345 α α α α α α :=
  if i = 0 then { b with member0 := v }
  else if i = 1 then { b with member1 := v }
  else if i = 2 then { b with member2 := v }
  else if i = 3 then { b with member3 := v }
  else if i = 4 then { b with member4 := v }
  else if i = 5 then { b with member5 := v } else b

/-- Abstraction of the arity-1 named binder to its element sequence. -/
def binder0.absList (b : binder0 α) : List α := [b.member0]

/-- Abstraction of the arity-2 named binder to its element sequence. -/
def binder01.absList (b : binder01 α α) : List α := [b.member0, b.member1]

/-- Abstraction of the arity-3 named binder to its element sequence. -/
def binder012.absList (b : binder012 α α α) : List α :=
  [b.member0, b.member1, b.member2]

/-- Abstraction of the arity-4 named binder to its element sequence. -/
def binder0123.absList (b : binder0123 α α α α) : List α :=
  [b.member0, b.member1, b.member2, b.member3]

/-- Abstraction of the arity-5 named binder to its element sequence. -/
def binder01234.absList (b : binder01234 α α α α α) : List α :=
  [b.member0, b.member1, b.member2, b.member3, b.member4]

/-- Abstraction of the arity-6 named binder to its element sequence. -/
def binder012345.absList (b : binder012345 α α α α α α) : List α :=
  [b.member0, b.member1, b.member2, b.member3, b.member4, b.member5]

/-- Modelled from the spec: the generic fallback binder of
src/kumi/detail/binder.hpp, which is not under src/; the spec describes it
only through its contract, a storage of all N elements exposing the same
indexed `get_leaf` accessor as the optimized layouts. -/
structure gbinder (α : Type) where
  elems : List α
deriving DecidableEq, Repr

/-- Modelled from the spec: the generic fallback `get_leaf`, returning a
reference to element i of the storage. -/
def gbinder.get_leaf [Inhabited α] (i : Nat) (b : gbinder α) : α :=
  b.elems.getD i default

/-- Modelled from the spec: assignment through the reference returned by
the generic fallback `get_leaf`. -/
def gbinder.set_leaf (i : Nat) (v : α) (b : gbinder α) : gbinder α :=
  ⟨b.elems.set i v⟩

/-- Abstraction of the generic fallback binder to its element sequence. -/
def gbinder.absList (b : gbinder α) : List α :=
  b.elems

/-! ## Comparison operators -/

/-- Embedding of `operator<` (tuple.hpp lines 265-286): starting from
`res = lhs[0] < rhs[0]`, for each i in 0..size-2 in order the loop performs
`res = res || (lhs[i+1] < rhs[i+1] && !(rhs[i] < lhs[i]))`. -/
def kumiLess (l r : List Int) : Bool :=
  (List.range (l.length - 1)).foldl
    (fun res i =>
      res || (decide (l.getD (i + 1) 0 < r.getD (i + 1) 0)
               && !decide (r.getD i 0 < l.getD i 0)))
    (decide (l.getD 0 0 < r.getD 0 0))

/-- Standard lexicographic strict order, written from the spec's words:
`lhs < rhs` iff at the first position where the elements differ, the lhs
element is smaller. -/
def specLexLess : List Int → List Int → Bool
  | x :: xs, y :: ys => decide (x < y) || ((x == y) && specLexLess xs ys)
  | _, _ => false

/-- Embedding of the nonzero-size `operator==` fold (tuple.hpp lines
225-234): the right-fold `((get<I>(self) == get<I>(other)) && ...)` over
I = 0..size-1, which evaluates in increasing index order and
short-circuits at the first mismatch. -/
def kumiEq : List Int → List Int → Bool
  | [], [] => true
  | x :: xs, y :: ys => (x == y) && kumiEq xs ys
  | _, _ => false

/-- Overload resolution for `operator==` (tuple.hpp lines 225-242): the
sized overload applies when the other operand has the same nonzero size;
the size-0 overload applies whenever the other operand has size 0 and
returns true without examining elements; otherwise no overload matches. -/
def kumiEqOp (l r : List Int) : Option Bool :=
  if r.length = l.length ∧ l.length ≠ 0 then some (kumiEq l r)
  else if r.length = 0 then some true
  else none

/-- Overload resolution for `operator!=` (tuple.hpp lines 247-260): the
sized overload returns `!(self == other)`; the size-0 overload returns
false. -/
def kumiNeqOp (l r : List Int) : Option Bool :=
  if r.length = l.length ∧ l.length ≠ 0 then some (!kumiEq l r)
  else if r.length = 0 then some false
  else none

/-! ## Sub-range extraction -/

/-- Subtraction of `std::size_t` values, which wraps modulo 2^64: the
operands are compile-time indices below 2^64. -/
def sub64 (a b : Nat) : Nat :=
  (a + 2 ^ 64 - b) % 2 ^ 64

/-- Addition of `std::size_t` values, wrapping modulo 2^64. -/
def add64 (a b : Nat) : Nat :=
  (a + b) % 2 ^ 64

/-- Embedding of `tuple::extract(index_t<I0>, index_t<I1>)` (tuple.hpp
lines 90-99): the overload is constrained by `(I1 - I0) <= sizeof...(Ts)`
in size_t arithmetic, and its body builds
`tuple{(*this)[index<N + I0>]...}` for N = 0..I1-I0-1; each element access
`operator[]` is itself constrained by `I < sizeof...(Ts)` at compile time,
so an out-of-range access makes the instantiation ill-formed.  `none`
models compile-time rejection. -/
def kumi_extract [Inhabited α] (I0 I1 : Nat) (l : List α) : Option (List α) :=
  let m := sub64 I1 I0
  if m ≤ l.length ∧ ∀ k < m, add64 k I0 < l.length then
    some ((List.range m).map (fun k => l.getD (add64 k I0) default))
  else none

/-! ## Cross-type assignment -/

/-- One pass of the element-wise assignment fold of `tuple::operator=`
(tuple.hpp lines 193-215): the fold expression
`((get<I>(*this) = get<I>(other)), ...)` performs the per-element
assignments at the listed indices in order; the per-element conversion may
throw, modelled by `Except`; on the first failure the loop stops with the
target in its partially-assigned state. -/
def assignGo (f : Nat → Except ε β) : List Nat → List β → List β × Option ε
  | [], tgt => (tgt, none)
  | i :: is, tgt =>
    match f i with
    | .ok v => assignGo f is (tgt.set i v)
    | .error e => (tgt, some e)

/-- Embedding of `tuple::operator=` from a size-matching piecewise
convertible tuple: elements are assigned at indices 0..size-1 in strictly
increasing order. -/
def kumiAssign (f : Nat → Except ε β) (tgt : List β) : List β × Option ε :=
  assignGo f (List.range tgt.length) tgt

/-! ## Conversion (cast) -/

/-- Modelled from the spec: the `piecewise_convertible` concept of
src/kumi/utils/concepts.hpp, which is not under src/; per the spec it
requires a size match and element-wise convertibility, modelled over an
arbitrary convertibility relation on the element types. -/
def piecewise_convertible (conv : CTy → CTy → Bool) (ts us : List CTy) : Bool :=
  (ts.length == us.length) && (List.zip ts us).all (fun p => conv p.1 p.2)

/-- Embedding of the requires-clause of `tuple::cast<Us...>` (tuple.hpp
lines 174-178): piecewise convertibility, equal pack sizes, and the fold
`(!std::same_as<Ts,Us> && ...)` demanding every target type differ from
its source type. -/
def cast_ok (conv : CTy → CTy → Bool) (ts us : List CTy) : Bool :=
  piecewise_convertible conv ts us && (ts.length == us.length)
    && (List.zip ts us).all (fun p => !(p.1 == p.2))

/-- Embedding of the requires-clause of `tuple::operator=` (tuple.hpp lines
193-194): piecewise convertibility alone. -/
def assign_ok (conv : CTy → CTy → Bool) (ts us : List CTy) : Bool :=
  piecewise_convertible conv ts us

/-- Value-level result of `tuple::cast` (tuple.hpp lines 179-182): a new
tuple whose element i is `static_cast<Us[i]>` of source element i, built in
index order; the per-index conversion is modelled by `c`. -/
def castVal (c : Nat → Int → Int) (l : List Int) : List Int :=
  (List.range l.length).map (fun i => c i (l.getD i 0))

end Kumi

namespace Kumi

/-! ## Helper lemmas -/

/-- Reading back the element just written into a list. -/
theorem getD_set_self (l : List α) {i : Nat} (v d : α) (h : i < l.length) :
    (l.set i v).getD i d = v := by
  rw [List.getD_eq_getElem?_getD, List.getElem?_set_self h, Option.getD_some]

/-- Writing one element of a list leaves every other position unchanged. -/
theorem getD_set_ne (l : List α) {i j : Nat} (v d : α) (h : i ≠ j) :
    (l.set i v).getD j d = l.getD j d := by
  rw [List.getD_eq_getElem?_getD, List.getElem?_set_ne h, ← List.getD_eq_getElem?_getD]

/-! ## Theorems for claims C1, C3, C4 -/

/-- C1 counterexample: for the homogeneous non-reference type list
(int, int) of size 2, the representation selected for `kumi::tuple` is the
generic fallback, not the homogeneous flat-array layout, because the
size_t-keyed index sequence of tuple.hpp line 33 matches none of the
int-keyed optimized binder specializations. -/
theorem C1_counterexample :
    tupleLayout [CTy.i32, CTy.i32] = Layout.generic ∧
    tupleLayout [CTy.i32, CTy.i32] ≠ Layout.flat := by
  constructor
  · rfl
  · decide

/-- C1 (amended): for every element type list of size between 2 and 6 in
which all element types are identical and none is a reference type, the
storage representation selected for `kumi::tuple` is the generic fallback
(neither the flat-array nor the named-field layout): the binder is
instantiated with a `std::make_index_sequence` key, whose element type
`std::size_t` differs from the `int` key of every optimized
specialization. -/
theorem C1_layout_selected (ts : List CTy)
    (h2 : 2 ≤ ts.length) (h6 : ts.length ≤ 6)
    (hsame : all_the_same ts = true) (href : no_references ts = true) :
    tupleLayout ts = Layout.generic := by
  unfold tupleLayout selectLayout namedMatch flatMatch make_index_sequence
  simp

/-- C1 witness: the amended layout theorem applied to the concrete
homogeneous list (int, int, int). -/
theorem C1_witness :
    tupleLayout [CTy.i32, CTy.i32, CTy.i32] = Layout.generic :=
  C1_layout_selected [CTy.i32, CTy.i32, CTy.i32]
    (by decide) (by decide) (by decide) (by decide)

/-- C3: the code of `operator<` evaluated at lhs = (1,0,0) and
rhs = (0,0,1) returns true, while the standard lexicographic strict order
of the claim returns false there (lhs is lexicographically greater since
1 > 0 at index 0): the implemented andnot-chain only consults the
immediately preceding index, not the whole prefix. -/
theorem C3_less_not_lexicographic :
    kumiLess [1, 0, 0] [0, 0, 1] = true ∧
    specLexLess [1, 0, 0] [0, 0, 1] = false ∧
    ¬ (∃ i < 3, (∀ j < i, List.getD [(1 : Int), 0, 0] j 0 = List.getD [(0 : Int), 0, 1] j 0)
          ∧ List.getD [(1 : Int), 0, 0] i 0 < List.getD [(0 : Int), 0, 1] i 0) := by
  refine ⟨by decide, by decide, ?_⟩
  rintro ⟨i, hi, hpre, hlt⟩
  interval_cases i
  · revert hlt; decide
  · have := hpre 0 (by decide); revert this; decide
  · have := hpre 0 (by decide); revert this; decide

/-- C4: transitivity of `operator<` fails on the code: with
a = (1,0,0), b = (0,0,1), c = (0,1,0) the implementation yields
a < b and b < c but not a < c. -/
theorem C4_less_not_transitive :
    kumiLess [1, 0, 0] [0, 0, 1] = true ∧
    kumiLess [0, 0, 1] [0, 1, 0] = true ∧
    kumiLess [1, 0, 0] [0, 1, 0] = false := by
  refine ⟨by decide, by decide, by decide⟩

/-- C2 counterexample: for the homogeneous non-reference list (int, int),
which is eligible for both optimized representations, a default-constructed
flat-array binder exposes 0 at index 0 (its `members = {}` initializer
value-initializes the array) while a default-constructed named-field binder
exposes whatever indeterminate value its uninitialized `member0` holds
(here 7), so the element values of a default-constructed tuple are not the
same under every eligible representation. -/
theorem C2_counterexample :
    flat_binder.get_leaf 0 (flat_default 2) = 0 ∧
    binder01.get_leaf 0 (named_default01 (7 : Int) 7) = 7 ∧
    flat_binder.get_leaf 0 (flat_default 2) ≠
      binder01.get_leaf 0 (named_default01 (7 : Int) 7) := by
  refine ⟨by decide, by decide, by decide⟩

/-- C2 (amended): element get and element set behave identically across the
flat-array, named-field and generic storage representations on explicitly
stored elements: for every representation, getting a valid index returns
exactly that element of the represented sequence, and setting a valid index
updates exactly that element; default-constructed values, however, are not
representation-independent (the flat layout value-initializes, the
named-field layouts leave their members uninitialized). -/
theorem C2_access_uniform :
    (∀ (α : Type) [Inhabited α] (b : flat_binder α) (i : Nat), i < b.members.length →
        flat_binder.get_leaf i b = (flat_binder.absList b).getD i default) ∧
    (∀ (α : Type) (b : flat_binder α) (i : Nat) (v : α), i < b.members.length →
        flat_binder.absList (flat_binder.set_leaf i v b) = (flat_binder.absList b).set i v) ∧
    (∀ (α : Type) [Inhabited α] (b : gbinder α) (i : Nat), i < b.elems.length →
        gbinder.get_leaf i b = (gbinder.absList b).getD i default) ∧
    (∀ (α : Type) (b : gbinder α) (i : Nat) (v : α), i < b.elems.length →
        gbinder.absList (gbinder.set_leaf i v b) = (gbinder.absList b).set i v) ∧
    (∀ (α : Type) [Inhabited α] (b : binder0 α) (i : Nat), i < 1 →
        binder0.get_leaf i b = (binder0.absList b).getD i default) ∧
    (∀ (α : Type) (b : binder0 α) (i : Nat) (v : α), i < 1 →
        binder0.absList (binder0.set_leaf i v b) = (binder0.absList b).set i v) ∧
    (∀ (α : Type) [Inhabited α] (b : binder01 α α) (i : Nat), i < 2 →
        binder01.get_leaf i b = (binder01.absList b).getD i default) ∧
    (∀ (α : Type) (b : binder01 α α) (i : Nat) (v : α), i < 2 →
        binder01.absList (binder01.set_leaf i v b) = (binder01.absList b).set i v) ∧
    (∀ (α : Type) [Inhabited α] (b : binder012 α α α) (i : Nat), i < 3 →
        binder012.get_leaf i b = (binder012.absList b).getD i default) ∧
    (∀ (α : Type) (b : binder012 α α α) (i : Nat) (v : α), i < 3 →
        binder012.absList (binder012.set_leaf i v b) = (binder012.absList b).set i v) ∧
    (∀ (α : Type) [Inhabited α] (b : binder0123 α α α α) (i : Nat), i < 4 →
        binder0123.get_leaf i b = (binder0123.absList b).getD i default) ∧
    (∀ (α : Type) (b : binder0123 α α α α) (i : Nat) (v : α), i < 4 →
        binder0123.absList (binder0123.set_leaf i v b) = (binder0123.absList b).set i v) ∧
    (∀ (α : Type) [Inhabited α] (b : binder01234 α α α α α) (i : Nat), i < 5 →
        binder01234.get_leaf i b = (binder01234.absList b).getD i default) ∧
    (∀ (α : Type) (b : binder01234 α α α α α) (i : Nat) (v : α), i < 5 →
        binder01234.absList (binder01234.set_leaf i v b) = (binder01234.absList b).set i v) ∧
    (∀ (α : Type) [Inhabited α] (b : binder012345 α α α α α α) (i : Nat), i < 6 →
        binder012345.get_leaf i b = (binder012345.absList b).getD i default) ∧
    (∀ (α : Type) (b : binder012345 α α α α α α) (i : Nat) (v : α), i < 6 →
        binder012345.absList (binder012345.set_leaf i v b) = (binder012345.absList b).set i v) := by
  refine ⟨?_, ?_, ?_, ?_, ?_, ?_, ?_, ?_, ?_, ?_, ?_, ?_, ?_, ?_, ?_, ?_⟩
  · intro α inst b i hi; rfl
  · intro α b i v hi; rfl
  · intro α inst b i hi; rfl
  · intro α b i v hi; rfl
  · intro α inst b i hi; interval_cases i <;> rfl
  · intro α b i v hi; interval_cases i <;>
      simp [binder0.set_leaf, binder0.absList, List.set]
  · intro α inst b i hi; interval_cases i <;> rfl
  · intro α b i v hi; interval_cases i <;>
      simp [binder01.set_leaf, binder01.absList, List.set]
  · intro α inst b i hi; interval_cases i <;> rfl
  · intro α b i v hi; interval_cases i <;>
      simp [binder012.set_leaf, binder012.absList, List.set]
  · intro α inst b i hi; interval_cases i <;> rfl
  · intro α b i v hi; interval_cases i <;>
      simp [binder0123.set_leaf, binder0123.absList, List.set]
  · intro α inst b i hi; interval_cases i <;> rfl
  · intro α b i v hi; interval_cases i <;>
      simp [binder01234.set_leaf, binder01234.absList, List.set]
  · intro α inst b i hi; interval_cases i <;> rfl
  · intro α b i v hi; interval_cases i <;>
      simp [binder012345.set_leaf, binder012345.absList, List.set]

/-- C2 witness: the cross-representation access law applied to concrete
binders holding the Int sequence (10, 20). -/
theorem C2_witness :
    flat_binder.get_leaf 1 (⟨[10, 20]⟩ : flat_binder Int) =
      (flat_binder.absList (⟨[10, 20]⟩ : flat_binder Int)).getD 1 default ∧
    binder01.absList (binder01.set_leaf 0 (5 : Int) ⟨10, 20⟩) =
      (binder01.absList (⟨10, 20⟩ : binder01 Int Int)).set 0 5 := by
  constructor
  · exact C2_access_uniform.1 Int ⟨[10, 20]⟩ 1 (by decide)
  · exact C2_access_uniform.2.2.2.2.2.2.2.1 Int ⟨10, 20⟩ 0 5 (by decide)

/-- C7: assigning through the reference returned by element access sets
exactly the selected element and leaves every other index unchanged, for
the generic, flat-array and named-field representations alike; in
particular on the sequence (1,2,3) of one integer type, get at index 1
yields 2 and after writing 9 through it the sequence is (1,9,3). -/
theorem C7_get_set_frame :
    (∀ (α : Type) [Inhabited α] (b : gbinder α) (i : Nat) (v : α), i < b.elems.length →
        gbinder.get_leaf i (gbinder.set_leaf i v b) = v ∧
        ∀ j, j ≠ i → gbinder.get_leaf j (gbinder.set_leaf i v b) = gbinder.get_leaf j b) ∧
    (∀ (α : Type) [Inhabited α] (b : flat_binder α) (i : Nat) (v : α), i < b.members.length →
        flat_binder.get_leaf i (flat_binder.set_leaf i v b) = v ∧
        ∀ j, j ≠ i → flat_binder.get_leaf j (flat_binder.set_leaf i v b) = flat_binder.get_leaf j b) ∧
    (∀ (α : Type) [Inhabited α] (b : binder012 α α α) (i : Nat) (v : α), i < 3 →
        binder012.get_leaf i (binder012.set_leaf i v b) = v ∧
        ∀ j, j < 3 → j ≠ i → binder012.get_leaf j (binder012.set_leaf i v b) = binder012.get_leaf j b) ∧
    (gbinder.get_leaf 1 (⟨[1, 2, 3]⟩ : gbinder Int) = 2 ∧
      (gbinder.set_leaf 1 9 (⟨[1, 2, 3]⟩ : gbinder Int)).elems = [1, 9, 3]) ∧
    (flat_binder.get_leaf 1 (⟨[1, 2, 3]⟩ : flat_binder Int) = 2 ∧
      (flat_binder.set_leaf 1 9 (⟨[1, 2, 3]⟩ : flat_binder Int)).members = [1, 9, 3]) := by
  refine ⟨?_, ?_, ?_, ⟨by decide, by decide⟩, ⟨by decide, by decide⟩⟩
  · intro α inst b i v hi
    exact ⟨getD_set_self b.elems v default hi,
           fun j hj => getD_set_ne b.elems v default (fun h => hj h.symm)⟩
  · intro α inst b i v hi
    exact ⟨getD_set_self b.members v default hi,
           fun j hj => getD_set_ne b.members v default (fun h => hj h.symm)⟩
  · intro α inst b i v hi
    constructor
    · interval_cases i <;> simp [binder012.get_leaf, binder012.set_leaf]
    · intro j hj hji
      interval_cases i <;> interval_cases j <;>
        simp_all [binder012.get_leaf, binder012.set_leaf]

/-- Characterization of the `operator==` fold on equal-length lists: it is
true exactly when every pair of elements at the same index is equal. -/
theorem kumiEq_true_iff (l r : List Int) (h : l.length = r.length) :
    kumiEq l r = true ↔ ∀ i < l.length, l.getD i 0 = r.getD i 0 := by
  induction l generalizing r with
  | nil =>
    cases r with
    | nil => simp [kumiEq]
    | cons y ys => simp at h
  | cons x xs ih =>
    cases r with
    | nil => simp at h
    | cons y ys =>
      have hlen : xs.length = ys.length := by simpa using h
      rw [kumiEq]
      simp only [Bool.and_eq_true, beq_iff_eq, ih ys hlen]
      constructor
      · rintro ⟨hxy, hrest⟩ i hi
        cases i with
        | zero => simpa [List.getD_cons_zero] using hxy
        | succ n =>
          simp only [List.getD_cons_succ]
          exact hrest n (by simpa using hi)
      · intro hall
        refine ⟨by simpa using hall 0 (by simp), fun i hi => ?_⟩
        have := hall (i + 1) (by simpa using Nat.succ_lt_succ hi)
        simpa [List.getD_cons_succ] using this

/-- C5: for product types of equal nonzero size, `operator==` resolves to
the sized overload and is true exactly when every pair of elements at the
same index compares equal; the fold has the short-circuit structure
`head-equality && rest` evaluated in increasing index order; and two size-0
product types resolve to the size-0 overload, which returns true without
examining elements. -/
theorem C5_equality (l r : List Int) (hlen : l.length = r.length) :
    (l.length ≠ 0 →
      kumiEqOp l r = some (kumiEq l r) ∧
      (kumiEq l r = true ↔ ∀ i < l.length, l.getD i 0 = r.getD i 0)) ∧
    (∀ (x y : Int) (xs ys : List Int),
      kumiEq (x :: xs) (y :: ys) = ((x == y) && kumiEq xs ys)) ∧
    (l.length = 0 → kumiEqOp l r = some true) := by
  refine ⟨fun hne => ⟨?_, kumiEq_true_iff l r hlen⟩, fun x y xs ys => rfl, fun h0 => ?_⟩
  · rw [kumiEqOp, if_pos ⟨hlen.symm, hne⟩]
  · rw [kumiEqOp, if_neg (by simp [h0]), if_pos (by omega)]

/-- C5 witness: the equality characterization applied to the concrete pairs
(1,2) vs (1,2) and the empty pair. -/
theorem C5_witness :
    kumiEqOp [1, 2] [1, 2] = some (kumiEq [1, 2] [1, 2]) ∧
    kumiEq [(1 : Int), 2] [1, 2] = true ∧
    kumiEqOp ([] : List Int) [] = some true := by
  refine ⟨((C5_equality [1, 2] [1, 2] rfl).1 (by decide)).1, ?_, ?_⟩
  · exact ((C5_equality [1, 2] [1, 2] rfl).1 (by decide)).2.mpr (by decide)
  · exact (C5_equality [] [] rfl).2.2 rfl

/-- C10: a nonempty tuple compared with a size-0 product type resolves to
the size-0 overloads defined inside every `tuple<Ts...>`: `operator==`
returns true and `operator!=` returns false even though the sizes differ. -/
theorem C10_empty_comparison (l : List Int) (h : 1 ≤ l.length) :
    kumiEqOp l [] = some true ∧ kumiNeqOp l [] = some false := by
  constructor
  · rw [kumiEqOp, if_neg (by simp; omega), if_pos (by simp)]
  · rw [kumiNeqOp, if_neg (by simp; omega), if_pos (by simp)]

/-- C10 witness: the size-0 comparison overloads applied to the concrete
size-2 tuple (3, 4). -/
theorem C10_witness :
    kumiEqOp [3, 4] [] = some true ∧ kumiNeqOp [3, 4] [] = some false :=
  C10_empty_comparison [3, 4] (by decide)

/-- C6 counterexample: the index pair (7,7) violates `I1 ≤ size` on a
4-element tuple, yet `extract` is not rejected: the guard `(I1 - I0) <= N`
computes 0 in size_t arithmetic, the body makes no element access, and the
call returns the empty tuple. -/
theorem C6_counterexample :
    kumi_extract 7 7 [(10 : Int), 20, 30, 40] = some [] ∧ ¬(7 ≤ 4) := by
  constructor
  · rw [kumi_extract]
    rw [if_pos]
    · have h0 : sub64 7 7 = 0 := by decide
      rw [h0]
      rfl
    · have h0 : sub64 7 7 = 0 := by decide
      rw [h0]
      exact ⟨Nat.zero_le _, fun k hk => absurd hk (Nat.not_lt_zero k)⟩
  · decide

/-- C6 (amended): for 0 ≤ I0 ≤ I1 ≤ N, `extract(I0, I1)` returns a new
tuple of size I1-I0 whose element k equals the source element I0+k;
index pairs with I0 ≠ I1 violating 0 ≤ I0 ≤ I1 ≤ N are rejected at compile
time, but any pair with I0 = I1 (even both out of range) is accepted and
yields the empty tuple; extracting [1,3) from (a,b,c,d) yields (b,c). -/
theorem C6_extract (α : Type) [Inhabited α] (l : List α) (I0 I1 : Nat)
    (hlen : l.length < 2 ^ 63) (hI0 : I0 < 2 ^ 64) (hI1 : I1 < 2 ^ 64) :
    (I0 ≤ I1 → I1 ≤ l.length →
      ∃ res, kumi_extract I0 I1 l = some res ∧ res.length = I1 - I0 ∧
        ∀ k < I1 - I0, res.getD k default = l.getD (I0 + k) default) ∧
    (I0 ≠ I1 → ¬(I0 ≤ I1 ∧ I1 ≤ l.length) → kumi_extract I0 I1 l = none) ∧
    (I0 = I1 → kumi_extract I0 I1 l = some []) ∧
    (∀ (a b c d : α), kumi_extract 1 3 [a, b, c, d] = some [b, c]) := by
  have h64 : (2 : Nat) ^ 64 = 18446744073709551616 := by norm_num
  have h63 : (2 : Nat) ^ 63 = 9223372036854775808 := by norm_num
  refine ⟨?_, ?_, ?_, ?_⟩
  · intro h01 h1len
    have hm : sub64 I1 I0 = I1 - I0 := by
      rw [sub64, h64]; omega
    refine ⟨(List.range (sub64 I1 I0)).map (fun k => l.getD (add64 k I0) default), ?_, ?_, ?_⟩
    · rw [kumi_extract]
      rw [if_pos]
      refine ⟨by omega, fun k hk => ?_⟩
      rw [add64, h64]
      rw [hm] at hk
      rw [h63] at hlen
      omega
    · simp [hm]
    · intro k hk
      have hklen : k < ((List.range (sub64 I1 I0)).map
          (fun k => l.getD (add64 k I0) default)).length := by simp [hm]; omega
      rw [List.getD_eq_getElem _ _ hklen, List.getElem_map, List.getElem_range]
      have ha : add64 k I0 = I0 + k := by rw [add64, h64]; omega
      rw [ha]
  · intro hne hviol
    rw [kumi_extract]
    rw [if_neg]
    rintro ⟨hle, hall⟩
    rcases Nat.lt_or_ge I0 I1 with hlt | hge
    · have hm : sub64 I1 I0 = I1 - I0 := by rw [sub64, h64]; omega
      rw [hm] at hle hall
      have hk := hall (I1 - I0 - 1) (by omega)
      rw [add64, h64] at hk
      rw [h63] at hlen
      omega
    · have hgt : I1 < I0 := by omega
      have hm : sub64 I1 I0 = I1 + 2 ^ 64 - I0 := by
        rw [sub64]; exact Nat.mod_eq_of_lt (by omega)
      rw [hm, h64] at hle hall
      have hk := hall 0 (by omega)
      rw [add64, h64] at hk
      rw [h63] at hlen
      omega
  · intro heq
    subst heq
    have hm : sub64 I0 I0 = 0 := by
      rw [sub64]
      have : I0 + 2 ^ 64 - I0 = 2 ^ 64 := by omega
      rw [this, Nat.mod_self]
    rw [kumi_extract]
    rw [if_pos]
    · rw [hm]; rfl
    · rw [hm]
      exact ⟨Nat.zero_le _, fun k hk => absurd hk (Nat.not_lt_zero k)⟩
  · intro a b c d
    rw [kumi_extract]
    rw [if_pos]
    · have hm : sub64 3 1 = 2 := by decide
      rw [hm]
      have h1 : add64 0 1 = 1 := by decide
      have h2 : add64 1 1 = 2 := by decide
      simp [List.range_succ, h1, h2]
    · have hm : sub64 3 1 = 2 := by decide
      rw [hm]
      refine ⟨by simp, fun k hk => ?_⟩
      interval_cases k
      · show add64 0 1 < 4; decide
      · show add64 1 1 < 4; decide

/-- C6 witness: extraction applied at the concrete valid pair (1,3) on the
Int sequence (10,20,30,40) and at the rejected pair (5,3). -/
theorem C6_witness :
    (∃ res, kumi_extract 1 3 [(10 : Int), 20, 30, 40] = some res ∧
      res.length = 3 - 1 ∧
      ∀ k < 3 - 1, res.getD k default = [(10 : Int), 20, 30, 40].getD (1 + k) default) ∧
    kumi_extract 5 3 [(10 : Int), 20, 30, 40] = none := by
  constructor
  · exact (C6_extract Int [10, 20, 30, 40] 1 3 (by norm_num) (by norm_num)
      (by norm_num)).1 (by norm_num) (by norm_num)
  · exact (C6_extract Int [10, 20, 30, 40] 5 3 (by norm_num) (by norm_num)
      (by norm_num)).2.1 (by norm_num) (by rintro ⟨h, -⟩; omega)

/-- Element-wise assignment with every conversion succeeding on the index
window [s, s+cnt): no error is reported and each window index below the
target length receives its converted value, all other positions keeping
their old values. -/
theorem assignGo_ok (f : Nat → Except ε β) (g : Nat → β) :
    ∀ (cnt s : Nat) (tgt : List β),
      (∀ i, s ≤ i → i < s + cnt → f i = Except.ok (g i)) →
      (assignGo f (List.range' s cnt) tgt).2 = none ∧
      ∀ (j : Nat) (d : β),
        (assignGo f (List.range' s cnt) tgt).1.getD j d =
          if s ≤ j ∧ j < s + cnt ∧ j < tgt.length then g j else tgt.getD j d := by
  intro cnt
  induction cnt with
  | zero =>
    intro s tgt hok
    refine ⟨rfl, fun j d => ?_⟩
    rw [if_neg (by omega)]
    rfl
  | succ n ih =>
    intro s tgt hok
    rw [List.range'_succ]
    have hs : f s = Except.ok (g s) := hok s le_rfl (by omega)
    rw [assignGo, hs]
    have hrec := ih (s + 1) (tgt.set s (g s))
      (fun i h1 h2 => hok i (by omega) (by omega))
    refine ⟨hrec.1, fun j d => ?_⟩
    rw [hrec.2 j d]
    by_cases hj : j = s
    · subst hj
      rw [if_neg (by omega)]
      by_cases hjl : j < tgt.length
      · rw [if_pos ⟨le_rfl, by omega, hjl⟩]
        exact getD_set_self tgt (g j) d hjl
      · rw [if_neg (by omega)]
        rw [List.getD_eq_getElem?_getD, List.getElem?_set, if_pos rfl, if_neg hjl,
          Option.getD_none, List.getD_eq_getElem?_getD tgt,
          List.getElem?_eq_none (by omega), Option.getD_none]
    · rw [getD_set_ne tgt (g s) d (fun h => hj h.symm)]
      have : (tgt.set s (g s)).length = tgt.length := List.length_set tgt s (g s)
      rw [this]
      by_cases hc : s + 1 ≤ j ∧ j < s + 1 + n ∧ j < tgt.length
      · rw [if_pos hc, if_pos (by omega)]
      · rw [if_neg hc, if_neg (by omega)]

/-- Element-wise assignment in the index window [s, s+cnt) stopping at the
first failing conversion k: the error is reported, indices [s, k) hold
their converted values and indices from k on are unchanged. -/
theorem assignGo_err (f : Nat → Except ε β) (g : Nat → β) (k : Nat) (e : ε) :
    ∀ (cnt s : Nat) (tgt : List β),
      s ≤ k → k < s + cnt →
      (∀ i, s ≤ i → i < k → f i = Except.ok (g i)) →
      f k = Except.error e →
      (assignGo f (List.range' s cnt) tgt).2 = some e ∧
      ∀ (j : Nat) (d : β),
        (assignGo f (List.range' s cnt) tgt).1.getD j d =
          if s ≤ j ∧ j < k ∧ j < tgt.length then g j else tgt.getD j d := by
  intro cnt
  induction cnt with
  | zero =>
    intro s tgt h1 h2 hok herr
    omega
  | succ n ih =>
    intro s tgt h1 h2 hok herr
    rw [List.range'_succ]
    by_cases hsk : s = k
    · subst hsk
      rw [assignGo, herr]
      refine ⟨rfl, fun j d => ?_⟩
      rw [if_neg (by omega)]
    · have hs : f s = Except.ok (g s) := hok s le_rfl (by omega)
      rw [assignGo, hs]
      have hrec := ih (s + 1) (tgt.set s (g s)) (by omega) (by omega)
        (fun i hi1 hi2 => hok i (by omega) hi2) herr
      refine ⟨hrec.1, fun j d => ?_⟩
      rw [hrec.2 j d]
      by_cases hj : j = s
      · subst hj
        rw [if_neg (by omega)]
        by_cases hjl : j < tgt.length
        · rw [if_pos ⟨le_rfl, by omega, hjl⟩]
          exact getD_set_self tgt (g j) d hjl
        · rw [if_neg (by omega)]
          rw [List.getD_eq_getElem?_getD, List.getElem?_set, if_pos rfl, if_neg hjl,
            Option.getD_none, List.getD_eq_getElem?_getD tgt,
            List.getElem?_eq_none (by omega), Option.getD_none]
      · rw [getD_set_ne tgt (g s) d (fun h => hj h.symm)]
        have hlen : (tgt.set s (g s)).length = tgt.length := List.length_set tgt s (g s)
        rw [hlen]
        by_cases hc : s + 1 ≤ j ∧ j < k ∧ j < tgt.length
        · rw [if_pos hc, if_pos (by omega)]
        · rw [if_neg hc, if_neg (by omega)]

/-- Element-wise assignment never changes the length of the target. -/
theorem assignGo_length (f : Nat → Except ε β) :
    ∀ (is : List Nat) (tgt : List β),
      (assignGo f is tgt).1.length = tgt.length := by
  intro is
  induction is with
  | nil => intro tgt; rfl
  | cons i is ih =>
    intro tgt
    rw [assignGo]
    cases hfi : f i with
    | ok v => rw [ih (tgt.set i v), List.length_set]
    | error e => rfl

/-- C8: cross-type tuple assignment assigns elements at indices 0..size-1
in increasing order: when every element conversion succeeds, every target
element holds its converted source value; when the conversion at index k
throws, the error propagates, elements 0..k-1 already hold their new
values, and elements from k on are unchanged — there is no rollback. -/
theorem C8_assignment (f : Nat → Except ε β) (tgt : List β) (g : Nat → β) (d : β) :
    ((∀ i < tgt.length, f i = Except.ok (g i)) →
      (kumiAssign f tgt).2 = none ∧
      (∀ j < tgt.length, (kumiAssign f tgt).1.getD j d = g j) ∧
      (kumiAssign f tgt).1.length = tgt.length) ∧
    (∀ (k : Nat) (e : ε), k < tgt.length → f k = Except.error e →
      (∀ i < k, f i = Except.ok (g i)) →
      (kumiAssign f tgt).2 = some e ∧
      (∀ j < k, (kumiAssign f tgt).1.getD j d = g j) ∧
      (∀ j, k ≤ j → (kumiAssign f tgt).1.getD j d = tgt.getD j d)) := by
  constructor
  · intro hok
    have h := assignGo_ok f g tgt.length 0 tgt
      (fun i h1 h2 => hok i (by omega))
    rw [kumiAssign, List.range_eq_range']
    refine ⟨h.1, fun j hj => ?_, assignGo_length f _ tgt⟩
    rw [h.2 j d, if_pos ⟨Nat.zero_le j, by omega, hj⟩]
  · intro k e hk herr hok
    have h := assignGo_err f g k e tgt.length 0 tgt (Nat.zero_le k) (by omega)
      (fun i h1 h2 => hok i h2) herr
    rw [kumiAssign, List.range_eq_range']
    refine ⟨h.1, fun j hj => ?_, fun j hj => ?_⟩
    · rw [h.2 j d, if_pos ⟨Nat.zero_le j, hj, by omega⟩]
    · rw [h.2 j d, if_neg (by omega)]

/-- C8 witness: assignment on the 3-element target (0,0,0) with the
conversion failing at index 1: element 0 is already assigned, the error is
reported, and elements 1 and 2 are unchanged. -/
theorem C8_witness :
    (kumiAssign (fun i => if i = 1 then Except.error 5 else Except.ok (100 + i))
      [(0 : Nat), 0, 0]).2 = some 5 ∧
    (kumiAssign (fun i => if i = 1 then Except.error 5 else Except.ok (100 + i))
      [(0 : Nat), 0, 0]).1.getD 0 0 = 100 ∧
    (kumiAssign (fun i => if i = 1 then Except.error 5 else Except.ok (100 + i))
      [(0 : Nat), 0, 0]).1.getD 2 0 = 0 := by
  have h := (C8_assignment
      (fun i => if i = 1 then Except.error 5 else Except.ok (100 + i))
      [(0 : Nat), 0, 0] (fun i => 100 + i) 0).2 1 5 (by decide) rfl
      (fun i hi => by interval_cases i; rfl)
  exact ⟨h.1, h.2.1 0 (by decide), h.2.2 2 (by decide)⟩

/-- Pairs drawn from the zip of a list with itself have equal components. -/
theorem mem_zip_self (ts : List CTy) :
    ∀ p ∈ List.zip ts ts, p.1 = p.2 := by
  induction ts with
  | nil => intro p hp; simp at hp
  | cons t ts ih =>
    intro p hp
    rw [List.zip_cons_cons] at hp
    rcases List.mem_cons.mp hp with h | h
    · subst h; rfl
    · exact ih p h

/-- C9: `cast<Us...>` is valid exactly when the sizes match, the source is
piecewise convertible to the targets, and every target type differs from
its source type; a conversion with some target type equal to its source
type is rejected, while plain assignment from an identically-typed tuple is
accepted (given every type converts to itself); the value produced by a
valid cast has the source length, with element i the conversion of source
element i. -/
theorem C9_cast (conv : CTy → CTy → Bool) (ts us : List CTy)
    (c : Nat → Int → Int) (l : List Int) :
    (cast_ok conv ts us = true ↔
      (ts.length = us.length ∧ (∀ p ∈ List.zip ts us, conv p.1 p.2 = true) ∧
        ∀ p ∈ List.zip ts us, p.1 ≠ p.2)) ∧
    ((∃ p ∈ List.zip ts us, p.1 = p.2) → cast_ok conv ts us = false) ∧
    ((∀ t, conv t t = true) → assign_ok conv ts ts = true) ∧
    ((castVal c l).length = l.length ∧
      ∀ i < l.length, (castVal c l).getD i 0 = c i (l.getD i 0)) := by
  have hiff : cast_ok conv ts us = true ↔
      (ts.length = us.length ∧ (∀ p ∈ List.zip ts us, conv p.1 p.2 = true) ∧
        ∀ p ∈ List.zip ts us, p.1 ≠ p.2) := by
    simp only [cast_ok, piecewise_convertible, Bool.and_eq_true, List.all_eq_true,
      beq_iff_eq, Bool.not_eq_eq_eq_not, Bool.not_true, beq_eq_false_iff_ne, ne_eq]
    tauto
  refine ⟨hiff, ?_, ?_, ?_, ?_⟩
  · rintro ⟨p, hp, hpe⟩
    cases hc : cast_ok conv ts us with
    | false => rfl
    | true => exact absurd hpe ((hiff.mp hc).2.2 p hp)
  · intro hrefl
    simp only [assign_ok, piecewise_convertible, Bool.and_eq_true, List.all_eq_true,
      beq_iff_eq]
    exact ⟨trivial, fun p hp => by rw [mem_zip_self ts p hp]; exact hrefl p.2⟩
  · simp [castVal]
  · intro i hi
    have hilen : i < (castVal c l).length := by simp [castVal]; omega
    rw [List.getD_eq_getElem _ _ hilen]
    simp only [castVal, List.getElem_map, List.getElem_range]

/-- C9 witness: over the always-true convertibility relation, the cast from
(int, char) to (double, char) is rejected because the second target type
equals its source type, while assignment from (int, char) to itself is
accepted; the cast value law applied to a concrete conversion on (5, 6). -/
theorem C9_witness :
    cast_ok (fun _ _ => true) [CTy.i32, CTy.chr] [CTy.f64, CTy.chr] = false ∧
    assign_ok (fun _ _ => true) [CTy.i32, CTy.chr] [CTy.i32, CTy.chr] = true ∧
    (castVal (fun i x => x + Int.ofNat i) [5, 6]).getD 1 0 = 7 := by
  refine ⟨?_, ?_, ?_⟩
  · exact (C9_cast (fun _ _ => true) [CTy.i32, CTy.chr] [CTy.f64, CTy.chr]
      (fun _ x => x) []).2.1 ⟨(CTy.chr, CTy.chr), by decide, rfl⟩
  · exact (C9_cast (fun _ _ => true) [CTy.i32, CTy.chr] [CTy.i32, CTy.chr]
      (fun _ x => x) []).2.2.1 (fun t => rfl)
  · exact ((C9_cast (fun _ _ => true) [] [] (fun i x => x + Int.ofNat i)
      [5, 6]).2.2.2.2 1 (by decide)).trans (by decide)

/-- C7 witness: the frame law applied to concrete binders over Int. -/
theorem C7_witness :
    gbinder.get_leaf 0 (gbinder.set_leaf 0 (7 : Int) ⟨[5, 6]⟩) = 7 ∧
    binder012.get_leaf 2 (binder012.set_leaf 1 (9 : Int) ⟨1, 2, 3⟩) =
      binder012.get_leaf 2 (⟨1, 2, 3⟩ : binder012 Int Int Int) := by
  constructor
  · exact (C7_get_set_frame.1 Int ⟨[5, 6]⟩ 0 7 (by decide)).1
  · exact (C7_get_set_frame.2.2.1 Int ⟨1, 2, 3⟩ 1 9 (by decide)).2 2 (by decide) (by decide)

end Kumi
